import Mathlib

/-!
Verification of the AEAD framing codecs in `src/ssclient/src/ahead.rs`.

The file shallowly embeds the four codec functions of `ahead.rs`:
`ahead_encrypted_write`, `ahead_decrypted_read` (stream chunk codec) and
`encrypt_payload_aead`, `decrypt_payload_aead` (datagram codec).

Modelling decisions, matching the repository's dependency boundaries:

* Bytes are `Nat` values; byte buffers are `List Nat`.  Where the Rust code
  truncates (`as u16`) the model reduces modulo `2 ^ 16` explicitly.
* The AEAD cipher engine (`crypto` crate: `BoxAeadEncryptor`,
  `BoxAeadDecryptor`, `CipherType`) is an external collaborator; it is
  embedded as a `CipherSuite` record of its interface: `tag_size`,
  `salt_size`, `new_aead_encryptor` / `new_aead_decryptor`, and stateful
  `encrypt` / `decrypt` over abstract session-state types, together with the
  interface's length laws (`encrypt` emits `len + tag_size` bytes; a
  successful `decrypt` emits `len - tag_size` bytes).
* The asynchronous byte source (`futures::AsyncReadExt::read_exact`) is
  embedded as a `List Nat` stream: `read_exact n` succeeds iff at least `n`
  bytes remain, consuming them; otherwise it fails with `UnexpectedEof`
  (the `futures` semantics: end-of-file before the buffer is filled —
  whether zero or some bytes were available — yields `UnexpectedEof`).
* Decode functions return the result together with the bytes remaining in
  the source, so consumption order is observable in theorems.
-/

namespace Seeker

/-- Modelled from the spec: the crate-level constant `MAX_PACKET_SIZE`,
imported by `src/ssclient/src/ahead.rs` from the crate root (which is not
among the given sources), is the maximum chunk size `0x3FFF` (16383); the
spec names it `MAX_CHUNK_SIZE = 0x3FFF` and the code's own assertion message
says "requires buffer to be smaller than 0x3FFF". -/
def MAX_PACKET_SIZE : Nat := 0x3FFF

/-- Error kinds observable from the codec, mirroring the `std::io::ErrorKind`
values the code produces: `unexpectedEof` for `read_exact` hitting end of
stream and for the "udp packet too short" datagram error, `invalidData` for
an oversized claimed chunk length, and `authFailure` for the cipher's
authentication error propagated by the `?` operator. -/
inductive IOErrorKind where
  | unexpectedEof
  | invalidData
  | authFailure
deriving DecidableEq

/-- `byteorder`'s `BigEndian::write_u16`: the two bytes of a 16-bit value,
most significant first. -/
def write_u16_be (v : Nat) : List Nat := [v / 256 % 256, v % 256]

/-- `byteorder`'s `BigEndian::read_u16` on a 2-byte buffer. -/
def read_u16_be (l : List Nat) : Nat := 256 * l.headD 0 + (l.drop 1).headD 0

/-- The interface of the external AEAD cipher engine (`crypto` crate), as
consumed by `ahead.rs`: static sizes, session construction from key and
salt, and stateful encrypt / decrypt.  `σe` and `σd` are the abstract
encryptor / decryptor session-state types (key, internally advancing
nonce).  `encrypt` is total and emits `len(plaintext) + tagSize` bytes;
`decrypt` either fails authentication (`none`) or emits
`len(ciphertext) - tagSize` bytes.  Both advance the session state. -/
structure CipherSuite (σe σd : Type) where
  tagSize : Nat
  saltSize : Nat
  newEnc : List Nat → List Nat → σe
  newDec : List Nat → List Nat → σd
  enc : σe → List Nat → List Nat × σe
  dec : σd → List Nat → Option (List Nat) × σd
  enc_len : ∀ s pt, (enc s pt).1.length = pt.length + tagSize
  dec_len : ∀ s ct pt s2, dec s ct = (some pt, s2) → pt.length = ct.length - tagSize

/-- `buffer_size` from `ahead.rs`: `2 + tag_size` (len and len-tag) plus
`data.len() + tag_size` (data and data-tag). -/
def buffer_size (tag_size : Nat) (data : List Nat) : Nat :=
  2 + tag_size + data.length + tag_size

/-- `ahead_encrypted_write` from `ahead.rs`.  Returns `none` exactly when the
`assert!` fires (`buf.len() > MAX_PACKET_SIZE`, a panic, before anything is
written); otherwise returns the bytes written into `dst` (the encrypted
2-byte big-endian length at offset 0, then the encrypted payload), the
returned `Ok(output_length)`, and the advanced encryptor state. -/
def ahead_encrypted_write {σe σd : Type} (S : CipherSuite σe σd) (cipher : σe)
    (buf : List Nat) : Option (List Nat × Nat × σe) :=
  if buf.length ≤ MAX_PACKET_SIZE then
    let output_length := buffer_size S.tagSize buf
    let data_len_buf := write_u16_be (buf.length % 2 ^ 16)
    let r1 := S.enc cipher data_len_buf
    let r2 := S.enc r1.2 buf
    some (r1.1 ++ r2.1, output_length, r2.2)
  else
    none

/-- `ahead_decrypted_read` from `ahead.rs`.  The byte source is a `List Nat`;
the result is paired with the bytes left unread in the source.  Mirrors the
code: `read_exact (2 + tag_size)` (Eof if fewer bytes remain, consuming
them), decrypt-and-authenticate the length unit, range-check the decoded
big-endian length against `MAX_PACKET_SIZE`, then `read_exact (len +
tag_size)` and decrypt-and-authenticate the payload unit. -/
def ahead_decrypted_read {σe σd : Type} (S : CipherSuite σe σd) (cipher : σd)
    (src : List Nat) : Except IOErrorKind (Nat × List Nat × σd) × List Nat :=
  if 2 + S.tagSize ≤ src.length then
    let unit1 := src.take (2 + S.tagSize)
    let src1 := src.drop (2 + S.tagSize)
    match S.dec cipher unit1 with
    | (none, _) => (Except.error IOErrorKind.authFailure, src1)
    | (some len_buf, c1) =>
      let len := read_u16_be len_buf
      if len > MAX_PACKET_SIZE then
        (Except.error IOErrorKind.invalidData, src1)
      else
        if len + S.tagSize ≤ src1.length then
          match S.dec c1 (src1.take (len + S.tagSize)) with
          | (none, _) =>
            (Except.error IOErrorKind.authFailure, src1.drop (len + S.tagSize))
          | (some pt, c2) =>
            (Except.ok (len, pt, c2), src1.drop (len + S.tagSize))
        else
          (Except.error IOErrorKind.unexpectedEof, [])
  else
    (Except.error IOErrorKind.unexpectedEof, [])

/-- `encrypt_payload_aead` from `ahead.rs`.  The fresh random salt produced
by `t.gen_salt()` is external randomness and is passed as the `salt`
parameter.  Writes `salt` at offset 0 of the output, then the ciphertext of
`payload` under the one-shot cipher derived from `(key, salt)`; returns the
output bytes and the returned length `salt.len() + payload.len() +
tag_size`. -/
def encrypt_payload_aead {σe σd : Type} (S : CipherSuite σe σd)
    (key salt payload : List Nat) : List Nat × Nat :=
  let cipher := S.newEnc key salt
  (salt ++ (S.enc cipher payload).1, salt.length + payload.length + S.tagSize)

/-- `decrypt_payload_aead` from `ahead.rs`.  Rejects a packet shorter than
`tag_size + salt_size` with the "udp packet too short" `UnexpectedEof`
error before any cipher instance is created; otherwise splits off the salt,
derives a one-shot decryptor from `(key, salt)` and authenticates and
decrypts the body, returning the plaintext length
`payload.len() - tag_size - salt_size` and the plaintext written into the
output buffer. -/
def decrypt_payload_aead {σe σd : Type} (S : CipherSuite σe σd)
    (key payload : List Nat) : Except IOErrorKind (Nat × List Nat) :=
  if payload.length < S.tagSize + S.saltSize then
    Except.error IOErrorKind.unexpectedEof
  else
    let salt := payload.take S.saltSize
    let data := payload.drop S.saltSize
    let data_length := payload.length - S.tagSize - S.saltSize
    match S.dec (S.newDec key salt) data with
    | (none, _) => Except.error IOErrorKind.authFailure
    | (some pt, _) => Except.ok (data_length, pt)

/-- A matching pair of stream cipher sessions ("same key, same nonce
progression"): `R` relates encryptor states to decryptor states such that
decrypting what the matched encryptor produced succeeds, returns the
plaintext, and leaves the advanced states matched again. -/
def StreamSound {σe σd : Type} (S : CipherSuite σe σd)
    (R : σe → σd → Prop) : Prop :=
  ∀ se sd pt, R se sd →
    ∃ sd', S.dec sd (S.enc se pt).1 = (some pt, sd') ∧ R (S.enc se pt).2 sd'

/-- Datagram cipher soundness: a one-shot decryptor derived from the same
`(key, salt)` as a one-shot encryptor authenticates and recovers what that
encryptor produced. -/
def DatagramSound {σe σd : Type} (S : CipherSuite σe σd) : Prop :=
  ∀ key salt pt, ∃ sd',
    S.dec (S.newDec key salt) (S.enc (S.newEnc key salt) pt).1 = (some pt, sd')

/-- A concrete instance of the cipher interface used to witness theorems:
the ciphertext is the plaintext followed by `tagSize` copies of the current
state as a tag, and the state is a counter advanced on every operation. -/
def toyEnc (tagSize : Nat) (s : Nat) (pt : List Nat) : List Nat × Nat :=
  (pt ++ List.replicate tagSize s, s + 1)

/-- Decryption for the witness cipher: checks the trailing `tagSize` bytes
against the current state (authentication) and strips them. -/
def toyDec (tagSize : Nat) (s : Nat) (ct : List Nat) : Option (List Nat) × Nat :=
  if tagSize ≤ ct.length ∧ ct.drop (ct.length - tagSize) = List.replicate tagSize s then
    (some (ct.take (ct.length - tagSize)), s + 1)
  else
    (none, s + 1)

/-- The witness cipher suite: tag size 2, salt size 4, session states are
counters seeded from key and salt. -/
def toySuite : CipherSuite Nat Nat where
  tagSize := 2
  saltSize := 4
  newEnc := fun key salt => key.sum + salt.sum
  newDec := fun key salt => key.sum + salt.sum
  enc := toyEnc 2
  dec := toyDec 2
  enc_len := by
    intro s pt
    simp [toyEnc]
  dec_len := by
    intro s ct pt s2 h
    unfold toyDec at h
    split at h
    · injection h with h1 _
      injection h1 with h1
      rw [← h1, List.length_take]
      exact min_eq_left (Nat.sub_le _ _)
    · injection h with h1 _
      exact Option.noConfusion h1

theorem toyDec_toyEnc (t s : Nat) (pt : List Nat) :
    toyDec t s (pt ++ List.replicate t s) = (some pt, s + 1) := by
  unfold toyDec
  have hlen : (pt ++ List.replicate t s).length = pt.length + t := by simp
  rw [if_pos]
  · rw [hlen, Nat.add_sub_cancel, List.take_left]
  · constructor
    · rw [hlen]
      omega
    · rw [hlen, Nat.add_sub_cancel, List.drop_left]

theorem toy_streamSound : StreamSound toySuite (fun a b => a = b) := by
  intro se sd pt h
  subst h
  exact ⟨se + 1, toyDec_toyEnc 2 se pt, rfl⟩

theorem toy_datagramSound : DatagramSound toySuite := by
  intro key salt pt
  exact ⟨key.sum + salt.sum + 1, toyDec_toyEnc 2 (key.sum + salt.sum) pt⟩

theorem read_write_u16_be (n : Nat) (h : n < 2 ^ 16) :
    read_u16_be (write_u16_be (n % 2 ^ 16)) = n := by
  rw [Nat.mod_eq_of_lt h]
  unfold write_u16_be read_u16_be
  simp only [List.headD_cons, List.drop_succ_cons, List.drop_zero]
  have h1 : n / 256 < 256 := by omega
  rw [Nat.mod_eq_of_lt h1]
  omega

theorem read_eof1 {σe σd : Type} (S : CipherSuite σe σd) (sd : σd)
    (src : List Nat) (h : src.length < 2 + S.tagSize) :
    ahead_decrypted_read S sd src = (Except.error IOErrorKind.unexpectedEof, []) := by
  unfold ahead_decrypted_read
  rw [if_neg (by omega)]

theorem read_authfail1 {σe σd : Type} (S : CipherSuite σe σd) (sd sd1 : σd)
    (src : List Nat) (h2 : 2 + S.tagSize ≤ src.length)
    (hdec : S.dec sd (src.take (2 + S.tagSize)) = (none, sd1)) :
    ahead_decrypted_read S sd src =
      (Except.error IOErrorKind.authFailure, src.drop (2 + S.tagSize)) := by
  unfold ahead_decrypted_read
  simp only [h2, if_true, hdec]

theorem read_invalid {σe σd : Type} (S : CipherSuite σe σd) (sd sd1 : σd)
    (src lb : List Nat) (h2 : 2 + S.tagSize ≤ src.length)
    (hdec : S.dec sd (src.take (2 + S.tagSize)) = (some lb, sd1))
    (hlen : MAX_PACKET_SIZE < read_u16_be lb) :
    ahead_decrypted_read S sd src =
      (Except.error IOErrorKind.invalidData, src.drop (2 + S.tagSize)) := by
  unfold ahead_decrypted_read
  simp only [h2, if_true, hdec]
  rw [if_pos hlen]

theorem read_eof2 {σe σd : Type} (S : CipherSuite σe σd) (sd sd1 : σd)
    (src lb : List Nat) (h2 : 2 + S.tagSize ≤ src.length)
    (hdec : S.dec sd (src.take (2 + S.tagSize)) = (some lb, sd1))
    (hlen : read_u16_be lb ≤ MAX_PACKET_SIZE)
    (h3 : src.length - (2 + S.tagSize) < read_u16_be lb + S.tagSize) :
    ahead_decrypted_read S sd src = (Except.error IOErrorKind.unexpectedEof, []) := by
  unfold ahead_decrypted_read
  simp only [h2, if_true, hdec, List.length_drop]
  rw [if_neg (by omega), if_neg (by omega)]

theorem read_authfail2 {σe σd : Type} (S : CipherSuite σe σd) (sd sd1 sd2 : σd)
    (src lb : List Nat) (h2 : 2 + S.tagSize ≤ src.length)
    (hdec : S.dec sd (src.take (2 + S.tagSize)) = (some lb, sd1))
    (hlen : read_u16_be lb ≤ MAX_PACKET_SIZE)
    (h3 : read_u16_be lb + S.tagSize ≤ src.length - (2 + S.tagSize))
    (hdec2 : S.dec sd1 ((src.drop (2 + S.tagSize)).take (read_u16_be lb + S.tagSize)) =
      (none, sd2)) :
    ahead_decrypted_read S sd src =
      (Except.error IOErrorKind.authFailure,
       (src.drop (2 + S.tagSize)).drop (read_u16_be lb + S.tagSize)) := by
  unfold ahead_decrypted_read
  simp only [h2, if_true, hdec, List.length_drop]
  rw [if_neg (by omega), if_pos (by omega), hdec2]

theorem read_ok {σe σd : Type} (S : CipherSuite σe σd) (sd sd1 sd2 : σd)
    (src lb pt : List Nat) (h2 : 2 + S.tagSize ≤ src.length)
    (hdec : S.dec sd (src.take (2 + S.tagSize)) = (some lb, sd1))
    (hlen : read_u16_be lb ≤ MAX_PACKET_SIZE)
    (h3 : read_u16_be lb + S.tagSize ≤ src.length - (2 + S.tagSize))
    (hdec2 : S.dec sd1 ((src.drop (2 + S.tagSize)).take (read_u16_be lb + S.tagSize)) =
      (some pt, sd2)) :
    ahead_decrypted_read S sd src =
      (Except.ok (read_u16_be lb, pt, sd2),
       (src.drop (2 + S.tagSize)).drop (read_u16_be lb + S.tagSize)) := by
  unfold ahead_decrypted_read
  simp only [h2, if_true, hdec, List.length_drop]
  rw [if_neg (by omega), if_pos (by omega), hdec2]

/-- C2: for every plaintext `buf` with `len(buf) ≤ MAX_PACKET_SIZE` and any
cipher session, `ahead_encrypted_write` returns `Ok` (never an error),
writes the encrypted 2-byte big-endian length of the plaintext as
`2 + tag_size` bytes at offset 0, writes the encrypted payload as
`len(buf) + tag_size` bytes immediately after, and returns exactly
`buffer_size tag_size buf = (2 + tag_size) + (len(buf) + tag_size)`. -/
theorem C2_encode_layout {σe σd : Type} (S : CipherSuite σe σd) (se : σe)
    (buf : List Nat) (h : buf.length ≤ MAX_PACKET_SIZE) :
    ∃ c1 se1 c2 se2,
      S.enc se (write_u16_be (buf.length % 2 ^ 16)) = (c1, se1) ∧
      S.enc se1 buf = (c2, se2) ∧
      c1.length = 2 + S.tagSize ∧
      c2.length = buf.length + S.tagSize ∧
      ahead_encrypted_write S se buf =
        some (c1 ++ c2, buffer_size S.tagSize buf, se2) ∧
      (c1 ++ c2).take (2 + S.tagSize) = c1 ∧
      (c1 ++ c2).drop (2 + S.tagSize) = c2 ∧
      (c1 ++ c2).length = buffer_size S.tagSize buf ∧
      buffer_size S.tagSize buf = 2 + S.tagSize + (buf.length + S.tagSize) := by
  have hc1 : (S.enc se (write_u16_be (buf.length % 2 ^ 16))).1.length = 2 + S.tagSize := by
    rw [S.enc_len]
    simp [write_u16_be, Nat.add_comm]
  refine ⟨_, _, _, _, rfl, rfl, hc1, S.enc_len _ _, ?_, ?_, ?_, ?_, ?_⟩
  · unfold ahead_encrypted_write
    rw [if_pos h]
  · rw [← hc1, List.take_left]
  · rw [← hc1, List.drop_left]
  · rw [List.length_append, hc1, S.enc_len, buffer_size]
    omega
  · unfold buffer_size
    omega

/-- C2 witness: the encoder layout theorem instantiated at the concrete
cipher suite, session state `0` and plaintext `[7]`. -/
theorem C2_encode_layout_witness :
    ([7] : List Nat).length ≤ MAX_PACKET_SIZE ∧
    ∃ c1 se1 c2 se2,
      toySuite.enc 0 (write_u16_be (([7] : List Nat).length % 2 ^ 16)) = (c1, se1) ∧
      toySuite.enc se1 [7] = (c2, se2) ∧
      c1.length = 2 + toySuite.tagSize ∧
      c2.length = ([7] : List Nat).length + toySuite.tagSize ∧
      ahead_encrypted_write toySuite 0 [7] =
        some (c1 ++ c2, buffer_size toySuite.tagSize [7], se2) ∧
      (c1 ++ c2).take (2 + toySuite.tagSize) = c1 ∧
      (c1 ++ c2).drop (2 + toySuite.tagSize) = c2 ∧
      (c1 ++ c2).length = buffer_size toySuite.tagSize [7] ∧
      buffer_size toySuite.tagSize [7] =
        2 + toySuite.tagSize + (([7] : List Nat).length + toySuite.tagSize) :=
  ⟨by decide, C2_encode_layout toySuite 0 [7] (by decide)⟩

/-- C1: stream round-trip.  For every plaintext `p` with
`len(p) ≤ MAX_PACKET_SIZE`, any cipher suite, and any matching pair of
cipher sessions (related by a relation `R` preserved by the cipher: same
key, same nonce progression), decoding with `ahead_decrypted_read` from the
bytes produced by `ahead_encrypted_write` (followed by any further stream
bytes `rest`) returns exactly `p` with plaintext length `len(p)`, consuming
exactly the encoded chunk. -/
theorem C1_stream_roundtrip {σe σd : Type} (S : CipherSuite σe σd)
    (R : σe → σd → Prop) (hS : StreamSound S R) (se : σe) (sd : σd)
    (hR : R se sd) (p rest : List Nat) (hp : p.length ≤ MAX_PACKET_SIZE) :
    ∃ wire se' sd',
      ahead_encrypted_write S se p = some (wire, buffer_size S.tagSize p, se') ∧
      ahead_decrypted_read S sd (wire ++ rest) =
        (Except.ok (p.length, p, sd'), rest) := by
  obtain ⟨sd1, hdec1, hR1⟩ := hS se sd (write_u16_be (p.length % 2 ^ 16)) hR
  obtain ⟨sd2, hdec2, -⟩ := hS _ sd1 p hR1
  have hread : read_u16_be (write_u16_be (p.length % 2 ^ 16)) = p.length :=
    read_write_u16_be p.length (by unfold MAX_PACKET_SIZE at hp; omega)
  set lb := write_u16_be (p.length % 2 ^ 16) with hlbdef
  set c1 := (S.enc se lb).1 with hc1def
  set c2 := (S.enc (S.enc se lb).2 p).1 with hc2def
  have hc1 : c1.length = 2 + S.tagSize := by
    rw [hc1def, S.enc_len, hlbdef]
    simp [write_u16_be, Nat.add_comm]
  have hc2 : c2.length = p.length + S.tagSize := by
    rw [hc2def, S.enc_len]
  refine ⟨c1 ++ c2, (S.enc (S.enc se lb).2 p).2, sd2, ?_, ?_⟩
  · unfold ahead_encrypted_write
    rw [if_pos hp, hc1def, hc2def, hlbdef]
  · rw [List.append_assoc]
    have htake1 : (c1 ++ (c2 ++ rest)).take (2 + S.tagSize) = c1 := by
      rw [← hc1, List.take_left]
    have hdrop1 : (c1 ++ (c2 ++ rest)).drop (2 + S.tagSize) = c2 ++ rest := by
      rw [← hc1, List.drop_left]
    have h2 : 2 + S.tagSize ≤ (c1 ++ (c2 ++ rest)).length := by
      rw [List.length_append, hc1]
      omega
    have h3 : read_u16_be lb + S.tagSize ≤ (c1 ++ (c2 ++ rest)).length - (2 + S.tagSize) := by
      rw [List.length_append, hc1, List.length_append, hc2, hread]
      omega
    have hmain := read_ok S sd sd1 sd2 (c1 ++ (c2 ++ rest)) lb p h2
      (by rw [htake1]; exact hdec1)
      (by rw [hread]; exact hp) h3
      (by rw [hdrop1, hread, ← hc2, List.take_left]; exact hdec2)
    rw [hmain, hdrop1, hread, ← hc2, List.drop_left]

/-- C1 witness: the round-trip theorem instantiated at the concrete cipher
suite with matched sessions `0`, plaintext `[104, 105]` and trailing stream
bytes `[3]`. -/
theorem C1_stream_roundtrip_witness :
    ([104, 105] : List Nat).length ≤ MAX_PACKET_SIZE ∧
    ∃ wire se' sd',
      ahead_encrypted_write toySuite 0 [104, 105] =
        some (wire, buffer_size toySuite.tagSize [104, 105], se') ∧
      ahead_decrypted_read toySuite 0 (wire ++ [3]) =
        (Except.ok (([104, 105] : List Nat).length, [104, 105], sd'), [3]) :=
  ⟨by decide, C1_stream_roundtrip toySuite (fun a b => a = b) toy_streamSound 0 0 rfl
    [104, 105] [3] (by decide)⟩

/-- C3: `ahead_encrypted_write` fails by assertion (modelled as `none`,
producing no output at all) exactly when `len(buf) > MAX_PACKET_SIZE`; in
particular at `len(buf) = MAX_PACKET_SIZE` the assertion does not fire and
the call returns a value, and oversized input is never silently
truncated. -/
theorem C3_encode_assert {σe σd : Type} (S : CipherSuite σe σd) (se : σe)
    (buf : List Nat) :
    ahead_encrypted_write S se buf = none ↔ MAX_PACKET_SIZE < buf.length := by
  unfold ahead_encrypted_write
  split
  · next hle =>
    simp only [reduceCtorEq, false_iff, not_lt]
    exact hle
  · next hgt =>
    simp only [true_iff]
    omega

/-- C4: if the authenticated, decrypted 2-byte big-endian length field
yields `len > MAX_PACKET_SIZE`, `ahead_decrypted_read` returns the
invalid-data error having consumed exactly the `2 + tag_size` bytes of the
length unit — no read sized by `len` is ever issued; and a claimed length
of exactly `MAX_PACKET_SIZE` is never rejected with invalid-data. -/
theorem C4_decode_oversize {σe σd : Type} (S : CipherSuite σe σd) (sd sd1 : σd)
    (src lb : List Nat) (h2 : 2 + S.tagSize ≤ src.length)
    (hdec : S.dec sd (src.take (2 + S.tagSize)) = (some lb, sd1)) :
    (MAX_PACKET_SIZE < read_u16_be lb →
      ahead_decrypted_read S sd src =
        (Except.error IOErrorKind.invalidData, src.drop (2 + S.tagSize))) ∧
    (read_u16_be lb = MAX_PACKET_SIZE →
      (ahead_decrypted_read S sd src).1 ≠ Except.error IOErrorKind.invalidData) := by
  constructor
  · intro hlen
    exact read_invalid S sd sd1 src lb h2 hdec hlen
  · intro hlen
    by_cases h3 : read_u16_be lb + S.tagSize ≤ src.length - (2 + S.tagSize)
    · rcases hd2 : S.dec sd1 ((src.drop (2 + S.tagSize)).take (read_u16_be lb + S.tagSize))
        with ⟨r, sd2⟩
      cases r with
      | none =>
        rw [read_authfail2 S sd sd1 sd2 src lb h2 hdec (le_of_eq hlen) h3 hd2]
        simp
      | some pt =>
        rw [read_ok S sd sd1 sd2 src lb pt h2 hdec (le_of_eq hlen) h3 hd2]
        simp
    · rw [read_eof2 S sd sd1 src lb h2 hdec (le_of_eq hlen) (by omega)]
      simp

/-- C4 witness: with the concrete suite (tag size 2), the source
`[64, 0, 0, 0]` authenticates to the length field `[64, 0]`, which claims
`0x4000 = 16384 > MAX_PACKET_SIZE`, and decode returns invalid-data having
consumed only the length unit. -/
theorem C4_decode_oversize_witness :
    2 + toySuite.tagSize ≤ ([64, 0, 0, 0] : List Nat).length ∧
    toySuite.dec 0 (([64, 0, 0, 0] : List Nat).take (2 + toySuite.tagSize)) =
      (some [64, 0], 1) ∧
    MAX_PACKET_SIZE < read_u16_be [64, 0] ∧
    ahead_decrypted_read toySuite 0 [64, 0, 0, 0] =
      (Except.error IOErrorKind.invalidData,
       ([64, 0, 0, 0] : List Nat).drop (2 + toySuite.tagSize)) :=
  ⟨by decide, by decide, by decide,
    (C4_decode_oversize toySuite 0 1 [64, 0, 0, 0] [64, 0] (by decide) (by decide)).1
      (by decide)⟩

/-- C5: `ahead_decrypted_read` first reads exactly `2 + tag_size` bytes and
decrypt-authenticates them into a 2-byte length field; an authentication
failure there propagates immediately (only those bytes consumed, so the
payload read is never issued before the length unit is authenticated and
range-checked); otherwise, once the decoded length passes the range check
and `len + tag_size` further bytes are available, it reads exactly those,
decrypt-authenticates them into `len` output bytes or propagates the
authentication failure, and on success returns `len`. -/
theorem C5_decode_order {σe σd : Type} (S : CipherSuite σe σd) (sd : σd)
    (src : List Nat) (h2 : 2 + S.tagSize ≤ src.length) :
    (∀ sd1, S.dec sd (src.take (2 + S.tagSize)) = (none, sd1) →
      ahead_decrypted_read S sd src =
        (Except.error IOErrorKind.authFailure, src.drop (2 + S.tagSize))) ∧
    (∀ lb sd1, S.dec sd (src.take (2 + S.tagSize)) = (some lb, sd1) →
      lb.length = 2 ∧
      (read_u16_be lb ≤ MAX_PACKET_SIZE →
        (∀ sd2, read_u16_be lb + S.tagSize ≤ src.length - (2 + S.tagSize) →
          S.dec sd1 ((src.drop (2 + S.tagSize)).take (read_u16_be lb + S.tagSize)) =
            (none, sd2) →
          ahead_decrypted_read S sd src =
            (Except.error IOErrorKind.authFailure,
             (src.drop (2 + S.tagSize)).drop (read_u16_be lb + S.tagSize))) ∧
        (∀ pt sd2, read_u16_be lb + S.tagSize ≤ src.length - (2 + S.tagSize) →
          S.dec sd1 ((src.drop (2 + S.tagSize)).take (read_u16_be lb + S.tagSize)) =
            (some pt, sd2) →
          ahead_decrypted_read S sd src =
            (Except.ok (read_u16_be lb, pt, sd2),
             (src.drop (2 + S.tagSize)).drop (read_u16_be lb + S.tagSize)) ∧
          pt.length = read_u16_be lb))) := by
  constructor
  · intro sd1 h
    exact read_authfail1 S sd sd1 src h2 h
  · intro lb sd1 hdec
    have hlb : lb.length = 2 := by
      have hh := S.dec_len _ _ _ _ hdec
      rw [List.length_take, min_eq_left h2] at hh
      omega
    refine ⟨hlb, fun hmax => ⟨?_, ?_⟩⟩
    · intro sd2 h3 hd2
      exact read_authfail2 S sd sd1 sd2 src lb h2 hdec hmax h3 hd2
    · intro pt sd2 h3 hd2
      refine ⟨read_ok S sd sd1 sd2 src lb pt h2 hdec hmax h3 hd2, ?_⟩
      have hh := S.dec_len _ _ _ _ hd2
      rw [List.length_take, List.length_drop, min_eq_left h3] at hh
      omega

/-- C5 witness: with the concrete suite, the source
`[0, 2, 0, 0, 104, 105, 1, 1]` carries one well-formed chunk: the length
unit authenticates to `[0, 2]` (length 2), the payload unit authenticates
to `[104, 105]`, and decode returns length 2 with the whole source
consumed. -/
theorem C5_decode_order_witness :
    2 + toySuite.tagSize ≤ ([0, 2, 0, 0, 104, 105, 1, 1] : List Nat).length ∧
    ahead_decrypted_read toySuite 0 [0, 2, 0, 0, 104, 105, 1, 1] =
      (Except.ok (2, [104, 105], 2), []) ∧
    ([104, 105] : List Nat).length = read_u16_be [0, 2] := by
  have h := C5_decode_order toySuite 0 [0, 2, 0, 0, 104, 105, 1, 1] (by decide)
  have h2 := (h.2 [0, 2] 1 (by decide)).2 (by decide)
  have h3 := h2.2 [104, 105] 2 (by decide) (by decide)
  exact ⟨by decide, h3.1.trans (by rfl), h3.2⟩

/-- C6 counterexample: end-of-stream exactly at a chunk boundary (empty
source) and end-of-stream mid-length-unit (one byte available) produce the
very same `UnexpectedEof` error result from `ahead_decrypted_read`, so the
caller cannot distinguish clean session termination from truncation —
refuting the claim that the two outcomes are distinguishable. -/
theorem C6_counterexample :
    ahead_decrypted_read toySuite 0 ([] : List Nat) =
      (Except.error IOErrorKind.unexpectedEof, []) ∧
    ahead_decrypted_read toySuite 0 [0] =
      (Except.error IOErrorKind.unexpectedEof, []) ∧
    ahead_decrypted_read toySuite 0 ([] : List Nat) =
      ahead_decrypted_read toySuite 0 [0] :=
  ⟨rfl, rfl, rfl⟩

/-- C6 (amended): whenever the source holds fewer than `2 + tag_size`
bytes — zero bytes (end-of-stream exactly at a chunk boundary) or a
partial length unit alike — `ahead_decrypted_read` returns the same
`UnexpectedEof` error; the code does not distinguish clean session
termination from truncation. -/
theorem C6_eof_uniform {σe σd : Type} (S : CipherSuite σe σd) (sd : σd)
    (src : List Nat) (h : src.length < 2 + S.tagSize) :
    ahead_decrypted_read S sd src = (Except.error IOErrorKind.unexpectedEof, []) :=
  read_eof1 S sd src h

/-- C6 witness: a three-byte source (shorter than the four-byte length unit
of the concrete suite) yields the `UnexpectedEof` error. -/
theorem C6_eof_uniform_witness :
    ([0, 0, 0] : List Nat).length < 2 + toySuite.tagSize ∧
    ahead_decrypted_read toySuite 0 [0, 0, 0] =
      (Except.error IOErrorKind.unexpectedEof, []) :=
  ⟨by decide, C6_eof_uniform toySuite 0 [0, 0, 0] (by decide)⟩

/-- C7: a received datagram packet shorter than `tag_size + salt_size`
bytes makes `decrypt_payload_aead` fail with the too-short error.  The
theorem holds for every cipher suite — in particular for suites whose
decryption always succeeds — because the size check short-circuits before
the salt is split off, before `new_aead_decryptor` is called and before any
decrypt is attempted, and the error result carries no output bytes. -/
theorem C7_udp_too_short {σe σd : Type} (S : CipherSuite σe σd)
    (key payload : List Nat) (h : payload.length < S.tagSize + S.saltSize) :
    decrypt_payload_aead S key payload = Except.error IOErrorKind.unexpectedEof := by
  unfold decrypt_payload_aead
  rw [if_pos h]

/-- C7 witness: with the concrete suite (`tag_size + salt_size = 6`), a
packet of exactly `tag_size + salt_size - 1 = 5` bytes is rejected. -/
theorem C7_udp_too_short_witness :
    ([0, 0, 0, 0, 0] : List Nat).length < toySuite.tagSize + toySuite.saltSize ∧
    decrypt_payload_aead toySuite [1] [0, 0, 0, 0, 0] =
      Except.error IOErrorKind.unexpectedEof :=
  ⟨by decide, C7_udp_too_short toySuite [1] [0, 0, 0, 0, 0] (by decide)⟩

/-- C8: `encrypt_payload_aead` writes the `salt_size`-byte salt at offset 0
of the destination, immediately followed by the AEAD ciphertext of the
payload (`len(payload) + tag_size` bytes) produced by the one-shot cipher
instance derived from `(key, salt)`, and returns the total length
`salt_size + len(payload) + tag_size`. -/
theorem C8_udp_encode {σe σd : Type} (S : CipherSuite σe σd)
    (key salt payload : List Nat) (hs : salt.length = S.saltSize) :
    ∃ ct se',
      S.enc (S.newEnc key salt) payload = (ct, se') ∧
      ct.length = payload.length + S.tagSize ∧
      encrypt_payload_aead S key salt payload =
        (salt ++ ct, S.saltSize + payload.length + S.tagSize) ∧
      (salt ++ ct).take S.saltSize = salt ∧
      (salt ++ ct).drop S.saltSize = ct ∧
      (salt ++ ct).length = S.saltSize + payload.length + S.tagSize := by
  refine ⟨_, _, rfl, S.enc_len _ _, ?_, ?_, ?_, ?_⟩
  · unfold encrypt_payload_aead
    rw [hs]
  · rw [← hs, List.take_left]
  · rw [← hs, List.drop_left]
  · rw [List.length_append, hs, S.enc_len]
    omega

/-- C8 witness: the datagram encoder layout theorem instantiated at the
concrete suite with key `[5]`, salt `[1, 2, 3, 4]` and payload `[9]`. -/
theorem C8_udp_encode_witness :
    ([1, 2, 3, 4] : List Nat).length = toySuite.saltSize ∧
    ∃ ct se',
      toySuite.enc (toySuite.newEnc [5] [1, 2, 3, 4]) [9] = (ct, se') ∧
      ct.length = ([9] : List Nat).length + toySuite.tagSize ∧
      encrypt_payload_aead toySuite [5] [1, 2, 3, 4] [9] =
        ([1, 2, 3, 4] ++ ct, toySuite.saltSize + ([9] : List Nat).length + toySuite.tagSize) ∧
      (([1, 2, 3, 4] : List Nat) ++ ct).take toySuite.saltSize = [1, 2, 3, 4] ∧
      (([1, 2, 3, 4] : List Nat) ++ ct).drop toySuite.saltSize = ct ∧
      (([1, 2, 3, 4] : List Nat) ++ ct).length =
        toySuite.saltSize + ([9] : List Nat).length + toySuite.tagSize :=
  ⟨by decide, C8_udp_encode toySuite [5] [1, 2, 3, 4] [9] (by decide)⟩

/-- C9: datagram round-trip.  For every key, payload and fresh
`salt_size`-byte salt, decoding the packet produced by
`encrypt_payload_aead` with the same key recovers exactly the payload with
length `len(p) = packet_length - tag_size - salt_size` (the decoder takes
the salt from `packet[0..salt_size]` and the body from the rest); in
particular two encodings of the same plaintext under two different salts
both decode to the identical plaintext. -/
theorem C9_udp_roundtrip {σe σd : Type} (S : CipherSuite σe σd)
    (hS : DatagramSound S) (key p salt1 salt2 : List Nat)
    (h1 : salt1.length = S.saltSize) (h2 : salt2.length = S.saltSize) :
    decrypt_payload_aead S key (encrypt_payload_aead S key salt1 p).1 =
      Except.ok (p.length, p) ∧
    decrypt_payload_aead S key (encrypt_payload_aead S key salt2 p).1 =
      Except.ok (p.length, p) ∧
    p.length = (encrypt_payload_aead S key salt1 p).1.length - S.tagSize - S.saltSize := by
  have main : ∀ salt : List Nat, salt.length = S.saltSize →
      decrypt_payload_aead S key (encrypt_payload_aead S key salt p).1 =
        Except.ok (p.length, p) := by
    intro salt hs
    obtain ⟨sd', hdec⟩ := hS key salt p
    have hlen : (salt ++ (S.enc (S.newEnc key salt) p).1).length =
        S.saltSize + (p.length + S.tagSize) := by
      rw [List.length_append, hs, S.enc_len]
    have henc : (encrypt_payload_aead S key salt p).1 =
        salt ++ (S.enc (S.newEnc key salt) p).1 := rfl
    have htake : (salt ++ (S.enc (S.newEnc key salt) p).1).take S.saltSize = salt := by
      rw [← hs, List.take_left]
    have hdrop : (salt ++ (S.enc (S.newEnc key salt) p).1).drop S.saltSize =
        (S.enc (S.newEnc key salt) p).1 := by
      rw [← hs, List.drop_left]
    rw [henc]
    unfold decrypt_payload_aead
    rw [if_neg (by rw [hlen]; omega)]
    simp only [htake, hdrop, hdec]
    have hdl : (salt ++ (S.enc (S.newEnc key salt) p).1).length - S.tagSize - S.saltSize
        = p.length := by
      rw [hlen]
      omega
    rw [hdl]
  refine ⟨main salt1 h1, main salt2 h2, ?_⟩
  have hlen1 : (encrypt_payload_aead S key salt1 p).1.length =
      S.saltSize + (p.length + S.tagSize) := by
    show (salt1 ++ (S.enc (S.newEnc key salt1) p).1).length = _
    rw [List.length_append, h1, S.enc_len]
  omega

/-- C9 witness: the datagram round-trip theorem instantiated at the
concrete suite with key `[7]`, payload `[5, 6]` and the two distinct salts
`[1, 2, 3, 4]` and `[4, 3, 2, 1]`. -/
theorem C9_udp_roundtrip_witness :
    ([1, 2, 3, 4] : List Nat).length = toySuite.saltSize ∧
    ([4, 3, 2, 1] : List Nat).length = toySuite.saltSize ∧
    decrypt_payload_aead toySuite [7]
        (encrypt_payload_aead toySuite [7] [1, 2, 3, 4] [5, 6]).1 =
      Except.ok (([5, 6] : List Nat).length, [5, 6]) ∧
    decrypt_payload_aead toySuite [7]
        (encrypt_payload_aead toySuite [7] [4, 3, 2, 1] [5, 6]).1 =
      Except.ok (([5, 6] : List Nat).length, [5, 6]) := by
  have h := C9_udp_roundtrip toySuite toy_datagramSound [7] [5, 6] [1, 2, 3, 4]
    [4, 3, 2, 1] (by decide) (by decide)
  exact ⟨by decide, by decide, h.1, h.2.1⟩

/-- C10: a received packet of length exactly `tag_size + salt_size` (empty
payload) is not rejected as too short — the minimum-size check is strict —
so it proceeds to decryption: when the tag authenticates, decode returns
plaintext length `0`, and when authentication fails the error is the
authentication error, not the too-short error. -/
theorem C10_udp_exact_min {σe σd : Type} (S : CipherSuite σe σd)
    (key payload : List Nat) (h : payload.length = S.tagSize + S.saltSize) :
    (∀ pt sd',
      S.dec (S.newDec key (payload.take S.saltSize)) (payload.drop S.saltSize) =
        (some pt, sd') →
      decrypt_payload_aead S key payload = Except.ok (0, pt) ∧ pt.length = 0) ∧
    (∀ sd',
      S.dec (S.newDec key (payload.take S.saltSize)) (payload.drop S.saltSize) =
        (none, sd') →
      decrypt_payload_aead S key payload = Except.error IOErrorKind.authFailure) := by
  have hnot : ¬ payload.length < S.tagSize + S.saltSize := by omega
  constructor
  · intro pt sd' hdec
    constructor
    · unfold decrypt_payload_aead
      rw [if_neg hnot]
      simp only [hdec]
      have hz : payload.length - S.tagSize - S.saltSize = 0 := by omega
      rw [hz]
    · have hh := S.dec_len _ _ _ _ hdec
      rw [List.length_drop] at hh
      omega
  · intro sd' hdec
    unfold decrypt_payload_aead
    rw [if_neg hnot]
    simp only [hdec]

/-- C10 witness: with the concrete suite, the six-byte packet
`[0, 0, 0, 0, 0, 0]` (exactly `tag_size + salt_size` bytes) authenticates
under the empty key and decodes to the empty payload with length `0`. -/
theorem C10_udp_exact_min_witness :
    ([0, 0, 0, 0, 0, 0] : List Nat).length = toySuite.tagSize + toySuite.saltSize ∧
    toySuite.dec (toySuite.newDec [] (([0, 0, 0, 0, 0, 0] : List Nat).take toySuite.saltSize))
        (([0, 0, 0, 0, 0, 0] : List Nat).drop toySuite.saltSize) = (some [], 1) ∧
    decrypt_payload_aead toySuite [] [0, 0, 0, 0, 0, 0] = Except.ok (0, []) :=
  ⟨by decide, by decide,
    ((C10_udp_exact_min toySuite [] [0, 0, 0, 0, 0, 0] (by decide)).1 [] 1 (by decide)).1⟩

end Seeker
